import Mathlib

/-!
Verification development for the discogs-backend repository
(WantlistOptimizer API, `src/server.js`, plus the earlier scraping
variant `src/unnamed/part_000`).

Prices, ratings and money amounts are modelled as exact rationals (ℚ).
JavaScript `null` / `undefined` / missing fields are modelled as
`Option`; JavaScript truthiness tests on strings and numbers are
modelled explicitly (`""` and `0` are falsy).
-/

set_option maxHeartbeats 1000000

/-- Condition hierarchy, `src/server.js` line 22 (identical table at
`src/unnamed/part_000` line 23): `CONDITIONS[s]` is `undefined` for any
other string, modelled as `none`. -/
def CONDITIONS : String → Option Nat
  | "P" => some 1
  | "F" => some 2
  | "G" => some 3
  | "G+" => some 4
  | "VG" => some 5
  | "VG+" => some 6
  | "NM" => some 7
  | "M" => some 8
  | _ => none

/-- Region mapping, `src/server.js` lines 24-33. A lookup with any other
key yields `undefined`, modelled as `none`. -/
def REGIONS : String → Option (List String)
  | "us" => some ["United States", "USA", "US"]
  | "uk" => some ["United Kingdom", "UK", "Great Britain"]
  | "eu" => some ["Germany", "France", "Italy", "Spain", "Netherlands", "Belgium",
      "Austria", "Poland", "Sweden", "Portugal", "Greece", "Ireland", "Switzerland",
      "Czech Republic", "Denmark", "Finland", "Norway"]
  | "jp" => some ["Japan"]
  | "au" => some ["Australia", "New Zealand"]
  | "ca" => some ["Canada"]
  | "asia" => some ["Japan", "South Korea", "Singapore", "Hong Kong", "Taiwan", "Thailand"]
  | "latam" => some ["Mexico", "Brazil", "Argentina", "Chile", "Colombia"]
  | _ => none

/-- Region mapping of the scraping variant, `src/unnamed/part_000`
lines 26-32 (a smaller table). -/
def REGIONS_SCRAPE : String → Option (List String)
  | "us" => some ["United States", "USA", "US"]
  | "uk" => some ["United Kingdom", "UK", "Great Britain"]
  | "eu" => some ["Germany", "France", "Italy", "Spain", "Netherlands", "Belgium",
      "Austria", "Poland", "Sweden", "Portugal", "Greece", "Ireland"]
  | "jp" => some ["Japan"]
  | "au" => some ["Australia", "New Zealand"]
  | _ => none

/-- `listPre pat s` : `pat` is a prefix of `s` (character lists). -/
def listPre : List Char → List Char → Bool
  | [], _ => true
  | _ :: _, [] => false
  | a :: as, b :: bs => a == b && listPre as bs

/-- `listSub pat s` : `pat` occurs as a contiguous substring of `s`,
modelling JavaScript `String.prototype.includes`. -/
def listSub (pat : List Char) : List Char → Bool
  | [] => listPre pat []
  | b :: bs => listPre pat (b :: bs) || listSub pat bs

/-- JavaScript `s.includes(sub)`. -/
def strIncludes (s sub : String) : Bool :=
  listSub sub.data s.data

/-- JavaScript `s.toLowerCase()` (the tables and aliases are ASCII). -/
def jsToLower (s : String) : String :=
  String.mk (s.data.map Char.toLower)

/-- JavaScript truthiness of an optional string: `null`/`undefined` and
`""` are falsy. -/
def truthyS : Option String → Bool
  | none => false
  | some s => !s.isEmpty

/-- JavaScript truthiness of an optional number: `null`/`undefined` and
`0` are falsy. -/
def truthyQ : Option ℚ → Bool
  | none => false
  | some v => v != 0

/-- `matchesRegion`, `src/server.js` lines 72-77, parameterized by the
region table so the identical function of `src/unnamed/part_000`
lines 81-86 (which differs only in its `REGIONS` table) is covered:

    if (!regionFilter || !location) return true;
    const countries = REGIONS[regionFilter.toLowerCase()];
    if (!countries) return true;
    return countries.some(c => location.toLowerCase().includes(c.toLowerCase()));
-/
def matchesRegionWith (table : String → Option (List String))
    (location regionFilter : Option String) : Bool :=
  if !truthyS regionFilter || !truthyS location then true
  else
    match table (jsToLower (regionFilter.getD "")) with
    | none => true
    | some countries =>
      countries.any (fun c => strIncludes (jsToLower (location.getD "")) (jsToLower c))

/-- `matchesRegion` of `src/server.js`. -/
def matchesRegion (location regionFilter : Option String) : Bool :=
  matchesRegionWith REGIONS location regionFilter

/-- `matchesRegion` of `src/unnamed/part_000`. -/
def matchesRegionScrape (location regionFilter : Option String) : Bool :=
  matchesRegionWith REGIONS_SCRAPE location regionFilter

/-- `meetsCondition`, `src/server.js` lines 79-82:

    if (!minCondition || !itemCondition) return true;
    return CONDITIONS[itemCondition] >= CONDITIONS[minCondition];

In JavaScript a `>=` comparison in which either side is `undefined`
evaluates to `false`. -/
def meetsCondition (itemCondition minCondition : Option String) : Bool :=
  if !truthyS minCondition || !truthyS itemCondition then true
  else
    match CONDITIONS (itemCondition.getD ""), CONDITIONS (minCondition.getD "") with
    | some ri, some rm => decide (rm ≤ ri)
    | _, _ => false

/-- `ListingFilterCriteria` as destructured at `src/server.js` line 118. -/
structure Filters where
  minCondition : Option String := none
  minSleeveCondition : Option String := none
  region : Option String := none
  minRating : Option ℚ := none
  maxPrice : Option ℚ := none
deriving DecidableEq

/-- One raw listing record of the Discogs marketplace response, with the
fields read by `getMarketplaceSellersDetailed` (`src/server.js`
lines 114-152). Optional fields model missing / `undefined` values. -/
structure RawListing where
  sellerUsername : Option String := none
  condition : Option String := none
  sleeve_condition : Option String := none
  sellerLocation : Option String := none
  sellerRating : Option ℚ := none
  sellerNumRatings : Option ℚ := none
  priceValue : Option ℚ := none
  priceCurrency : Option String := none
  ships_from : Option String := none
  uri : Option String := none
  comments : Option String := none
deriving DecidableEq

/-- `src/server.js` lines 120-122: skip (`continue`) unless
`meetsCondition` holds, guarded by `minCondition && listing.condition`. -/
def condCheck (f : Filters) (l : RawListing) : Bool :=
  if truthyS f.minCondition && truthyS l.condition then
    meetsCondition l.condition f.minCondition
  else true

/-- `src/server.js` lines 124-126: the sleeve-condition filter. -/
def sleeveCheck (f : Filters) (l : RawListing) : Bool :=
  if truthyS f.minSleeveCondition && truthyS l.sleeve_condition then
    meetsCondition l.sleeve_condition f.minSleeveCondition
  else true

/-- `src/server.js` lines 128-130: the region filter. -/
def regionCheck (f : Filters) (l : RawListing) : Bool :=
  if truthyS f.region && truthyS l.sellerLocation then
    matchesRegion l.sellerLocation f.region
  else true

/-- `src/server.js` lines 132-134: skip when
`parseFloat(listing.seller.rating) < minRating`. -/
def ratingCheck (f : Filters) (l : RawListing) : Bool :=
  if truthyQ f.minRating && truthyQ l.sellerRating then
    !decide (l.sellerRating.getD 0 < f.minRating.getD 0)
  else true

/-- `src/server.js` lines 136-138: skip when
`parseFloat(listing.price.value) > maxPrice`. -/
def priceCheck (f : Filters) (l : RawListing) : Bool :=
  if truthyQ f.maxPrice && truthyQ l.priceValue then
    !decide (f.maxPrice.getD 0 < l.priceValue.getD 0)
  else true

/-- The conjunction of the five `continue` guards of the listing loop,
`src/server.js` lines 120-138. -/
def passesFilters (f : Filters) (l : RawListing) : Bool :=
  condCheck f l && sleeveCheck f l && regionCheck f l &&
    ratingCheck f l && priceCheck f l

/-- `x || "Unknown"` on an optional string. -/
def orUnknown (o : Option String) : String :=
  match o with
  | none => "Unknown"
  | some s => if s.isEmpty then "Unknown" else s

/-- `x || d` on an optional string with default `d`. -/
def orDefaultS (o : Option String) (d : String) : String :=
  match o with
  | none => d
  | some s => if s.isEmpty then d else s

/-- The `sellerData` object built at `src/server.js` lines 140-152. -/
structure SellerData where
  seller : String
  price : ℚ
  currency : String
  condition : String
  sleeveCondition : String
  location : String
  rating : ℚ
  rating_count : ℚ
  ships_from : String
  uri : String
  comments : String
deriving DecidableEq

/-- Construction of one `sellerData` record (`src/server.js`
lines 140-152); `x || 0` on numbers maps `0`/missing to `0`. -/
def mkSellerData (s : String) (l : RawListing) : SellerData :=
  { seller := s
    price := l.priceValue.getD 0
    currency := orDefaultS l.priceCurrency "USD"
    condition := orUnknown l.condition
    sleeveCondition := orUnknown l.sleeve_condition
    location := orUnknown l.sellerLocation
    rating := l.sellerRating.getD 0
    rating_count := l.sellerNumRatings.getD 0
    ships_from := orDefaultS l.ships_from (orUnknown l.sellerLocation)
    uri := orDefaultS l.uri ""
    comments := orDefaultS l.comments "" }

/-- The `for (const listing of listings)` loop of
`getMarketplaceSellersDetailed` (`src/server.js` lines 112-157):
listings without a seller username are skipped, then the five filter
guards run, then the `sellerData` record is pushed. -/
def processListings (f : Filters) : List RawListing → List SellerData
  | [] => []
  | l :: rest =>
    if truthyS l.sellerUsername then
      if passesFilters f l then
        mkSellerData (l.sellerUsername.getD "") l :: processListings f rest
      else processListings f rest
    else processListings f rest

/-- Outcome of one HTTP attempt of the marketplace fetch: a successful
response carrying parsed listings, a non-ok response with its status
code, or a thrown exception (network or JSON failure). -/
inductive HttpResponse where
  | ok (listings : List RawListing)
  | err (status : Nat)
  | exn
deriving DecidableEq

/-- `getMarketplaceSellersDetailed`, `src/server.js` lines 84-163, over
a response oracle: `responses k` is the outcome of the `k`-th HTTP
attempt for this item. The `try`/`catch` returning `[]` is the `.exn`
branch; a non-ok status of 429 triggers the self-recursive retry (after
a 2 s sleep, irrelevant to the value); any other non-ok status returns
`[]` at once. The JavaScript recursion is unbounded, so the model takes
`fuel` = the number of attempts it may still make; `none` means the
call is still retrying when the fuel runs out (i.e. it has not
returned). -/
def getMarketplaceSellersDetailed (f : Filters) (responses : Nat → HttpResponse) :
    Nat → Nat → Option (List SellerData)
  | _, 0 => none
  | attempt, fuel + 1 =>
    match responses attempt with
    | .exn => some []
    | .err status =>
      if status = 429 then
        getMarketplaceSellersDetailed f responses (attempt + 1) fuel
      else some []
    | .ok listings => some (processListings f listings)

/-- A want-list item as used by `analyzeWantlistParallel`: `want.id` and
`want.basic_information?.title` (`src/server.js` lines 183, 208-209). -/
structure WantItem where
  id : Nat
  title : Option String := none
deriving DecidableEq

/-- One element of a vendor's `listings` array, pushed at
`src/server.js` lines 207-215. -/
structure VendorListing where
  releaseId : Nat
  releaseTitle : String
  price : ℚ
  currency : String
  condition : String
  sleeveCondition : String
  uri : String
deriving DecidableEq

/-- The accumulator object `vendorDetails[seller]` created at
`src/server.js` lines 192-202 and mutated at lines 205-215. -/
structure Vendor where
  seller : String
  count : Nat
  listings : List VendorListing
  totalPrice : ℚ
  location : String
  rating : ℚ
  rating_count : ℚ
deriving DecidableEq

/-- The listing entry pushed for `(want, sellerData)`
(`src/server.js` lines 207-215). -/
def mkVendorListing (w : WantItem) (sd : SellerData) : VendorListing :=
  { releaseId := w.id
    releaseTitle := orUnknown w.title
    price := sd.price
    currency := sd.currency
    condition := sd.condition
    sleeveCondition := sd.sleeveCondition
    uri := sd.uri }

/-- The fresh accumulator of `src/server.js` lines 193-202. -/
def freshVendor (sd : SellerData) : Vendor :=
  { seller := sd.seller
    count := 0
    listings := []
    totalPrice := 0
    location := sd.location
    rating := sd.rating
    rating_count := sd.rating_count }

/-- The three mutations of `src/server.js` lines 205-215:
`count += 1`, `totalPrice += parseFloat(price) || 0`, `listings.push`. -/
def addToVendor (w : WantItem) (sd : SellerData) (v : Vendor) : Vendor :=
  { v with
    count := v.count + 1
    totalPrice := v.totalPrice + sd.price
    listings := v.listings ++ [mkVendorListing w sd] }

/-- Get-or-create on `vendorDetails`, modelled as an insertion-ordered
association list (JavaScript object key order for these string keys is
insertion order), then the fold of one `sellerData`
(`src/server.js` lines 189-216): a new seller is appended at the end. -/
def foldSeller (w : WantItem) (sd : SellerData) : List Vendor → List Vendor
  | [] => [addToVendor w sd (freshVendor sd)]
  | v :: vs =>
    if v.seller = sd.seller then addToVendor w sd v :: vs
    else v :: foldSeller w sd vs

/-- The whole double loop `results.forEach(... for (const sellerData of
sellersData) ...)` over all batches, flattened to the list of
`(want, sellerData)` pairs it visits in order. -/
def foldResults (pairs : List (WantItem × SellerData)) (acc : List Vendor) : List Vendor :=
  pairs.foldl (fun acc p => foldSeller p.1 p.2 acc) acc

/-- `x.toFixed(2)` on a non-negative amount: round to 2 decimal places,
half away from zero rounds up (ECMA `toFixed` picks the larger
candidate on a tie). -/
def round2 (x : ℚ) : ℚ :=
  (⌊x * 100 + 1 / 2⌋ : ℚ) / 100

/-- The final per-vendor record after the `.map` of `src/server.js`
lines 226-231: `avgPrice`, `estimatedTotal`, `savingsVsMultiple` are
(re)computed, `estimatedSavings` is absent (it is only assigned to the
top vendor afterwards). -/
structure RankedVendor where
  seller : String
  count : Nat
  listings : List VendorListing
  totalPrice : ℚ
  location : String
  rating : ℚ
  rating_count : ℚ
  avgPrice : ℚ
  estimatedTotal : ℚ
  savingsVsMultiple : ℚ
  estimatedSavings : Option ℚ
deriving DecidableEq

/-- The `.map` body of `src/server.js` lines 226-231:
`avgPrice: v.count > 0 ? (v.totalPrice / v.count).toFixed(2) : 0`,
`estimatedTotal: (v.totalPrice + v.count * 5).toFixed(2)`,
`savingsVsMultiple: 0`. -/
def finalizeVendor (v : Vendor) : RankedVendor :=
  { seller := v.seller
    count := v.count
    listings := v.listings
    totalPrice := v.totalPrice
    location := v.location
    rating := v.rating
    rating_count := v.rating_count
    avgPrice := if 0 < v.count then round2 (v.totalPrice / v.count) else 0
    estimatedTotal := round2 (v.totalPrice + (v.count : ℚ) * 5)
    savingsVsMultiple := 0
    estimatedSavings := none }

/-- The sort comparator `(a, b) => b.count - a.count` orders by `count`
descending; ECMAScript `Array.prototype.sort` is stable, and the unique
stable descending-by-count permutation is the one insertion sort
computes with this relation. -/
def vendorGE (a b : RankedVendor) : Prop := b.count ≤ a.count

instance : DecidableRel vendorGE := fun a b => Nat.decLe b.count a.count

/-- `src/server.js` lines 233-241: after sorting, the top vendor (only)
receives `estimatedSavings = (toAnalyze.length * 5 - 5).toFixed(2)`,
where 5 is the flat per-order shipping estimate. -/
def applySavings (analyzedCount : Nat) : List RankedVendor → List RankedVendor
  | [] => []
  | top :: rest =>
    { top with estimatedSavings := some (round2 ((analyzedCount : ℚ) * 5 - 5)) } :: rest

/-- `Object.values(vendorDetails).map(finalize).sort(desc by count)`
followed by the top-vendor savings assignment
(`src/server.js` lines 226-241). -/
def rankVendors (analyzedCount : Nat) (vendorDetails : List Vendor) : List RankedVendor :=
  applySavings analyzedCount
    (List.insertionSort vendorGE (vendorDetails.map finalizeVendor))

/-- `const toAnalyze = maxItems ? wantlist.slice(0, maxItems) : wantlist`
(`src/server.js` line 166); `maxItems = 0` is falsy. -/
def analyzedItems (wantlist : List WantItem) (maxItems : Option Nat) : List WantItem :=
  match maxItems with
  | none => wantlist
  | some m => if m = 0 then wantlist else wantlist.take m

/-- The `(want, sellerData)` pairs visited by the batch loops of
`src/server.js` lines 175-224, in order. Batching partitions
`toAnalyze` into consecutive chunks and concatenates their results, so
the visit order is exactly the order of `toAnalyze`; `results` is the
per-item outcome of `getMarketplaceSellersDetailed` (the network
oracle). -/
def analysisPairs (wantlist : List WantItem) (results : WantItem → List SellerData)
    (maxItems : Option Nat) : List (WantItem × SellerData) :=
  (analyzedItems wantlist maxItems).flatMap
    (fun w => (results w).map (fun sd => (w, sd)))

/-- `analyzeWantlistParallel`, `src/server.js` lines 165-244, as a
function of the per-item fetch outcomes. -/
def analyzeWantlistParallel (wantlist : List WantItem)
    (results : WantItem → List SellerData) (maxItems : Option Nat) : List RankedVendor :=
  rankVendors (analyzedItems wantlist maxItems).length
    (foldResults (analysisPairs wantlist results maxItems) [])

/-- Eviction of timestamps older than 60 s,
`src/server.js` line 47: `queue.filter(time => now - time < 60000)`. -/
def evictOld (now : Nat) (queue : List Nat) : List Nat :=
  queue.filter (fun t => now - t < 60000)

/-- `RateLimiter.throttle`, `src/server.js` lines 45-57, with times in
milliseconds. The method evicts old timestamps; if the remaining count
has reached `maxPerMinute` it sleeps `60000 - (now - oldest) + 100` ms
and re-invokes itself (the clock having advanced by the wait), else it
appends the current time and returns. `fuel` bounds the number of
re-evaluations of the model; on success it returns the grant time and
the new queue. The pushed timestamp (`Date.now()` re-read at
`src/server.js` line 56) is modelled as the same tick as the check,
time being millisecond-grained; a later push tick could only leave
stale (over-counting) entries in the queue, the safe direction. -/
def RateLimiter.throttle (maxPerMinute : Nat) :
    Nat → Nat → List Nat → Option (Nat × List Nat)
  | 0, _, _ => none
  | fuel + 1, now, queue =>
    let q := evictOld now queue
    if maxPerMinute ≤ q.length then
      let oldest := q.headD 0
      let wait := 60000 - (now - oldest) + 100
      RateLimiter.throttle maxPerMinute fuel (now + wait) q
    else
      some (now, q ++ [now])

/-- A sequential run of `throttle` calls against one shared
`RateLimiter`. Each call is described by the delay since the previous
call completed and a fuel bound; the run threads the clock and queue
and records every grant timestamp (the ghost `grants` history). -/
def RateLimiter.run (maxPerMinute : Nat) :
    List (Nat × Nat) → Nat → List Nat → List Nat →
      Option (Nat × List Nat × List Nat)
  | [], clock, queue, grants => some (clock, queue, grants)
  | (delay, fuel) :: calls, clock, queue, grants =>
    match RateLimiter.throttle maxPerMinute fuel (clock + delay) queue with
    | none => none
    | some (g, queue1) =>
      RateLimiter.run maxPerMinute calls g queue1 (grants ++ [g])

/-- Number of grants of `grants` falling in the rolling window
`(t - 60000, t]`. -/
def grantsInWindow (grants : List Nat) (t : Nat) : Nat :=
  grants.countP (fun g => decide (t - g < 60000) && decide (g ≤ t))

/-! ## Shared example data for witnesses and counterexamples -/

/-- A raw listing of seller `alice` at a given price. -/
def rawAlice (p : ℚ) : RawListing :=
  { sellerUsername := some "alice", priceValue := some p }

/-- The `sellerData` record of seller `alice` at price `p`. -/
def sdAlice (p : ℚ) : SellerData := mkSellerData "alice" (rawAlice p)

/-- The `sellerData` record of seller `bob` at price `p`. -/
def sdBob (p : ℚ) : SellerData :=
  mkSellerData "bob" { sellerUsername := some "bob", priceValue := some p }

/-- A want-list item with catalog id 1. -/
def wItem1 : WantItem := { id := 1 }

/-- A want-list item with catalog id 2. -/
def wItem2 : WantItem := { id := 2 }

/-! ## C1 — retry on throttling (HTTP 429) -/

/-- C1: under sustained throttling (every attempt answers HTTP 429),
`getMarketplaceSellersDetailed` never returns, whatever attempt budget
it is given: the self-recursive retry of `src/server.js` lines 101-105
has no retry counter, so it neither caps retries at 3 nor ever returns
the empty sequence. This refutes the claimed bounded retry and
termination; the model returns `none` (still retrying) for every fuel. -/
theorem getMarketplaceSellersDetailed_sustained_429_diverges
    (f : Filters) (fuel attempt : Nat) :
    getMarketplaceSellersDetailed f (fun _ => HttpResponse.err 429) attempt fuel = none := by
  induction fuel generalizing attempt with
  | zero => rfl
  | succ n ih =>
    unfold getMarketplaceSellersDetailed
    simpa using ih (attempt + 1)

/-! ## C4 — per-item fetch failure handling -/

/-- C4: the per-item fetch never propagates an error value: a thrown
exception on the first attempt yields `some []` (the `catch` of
`src/server.js` lines 159-162), and a non-ok, non-429 HTTP status
yields `some []` on that same first attempt with any remaining fuel
unused — i.e. immediately, without retrying
(`src/server.js` lines 100-107). -/
theorem getMarketplaceSellersDetailed_failure_isolation
    (f : Filters) (responses : Nat → HttpResponse) :
    (responses 0 = HttpResponse.exn →
      ∀ fuel, getMarketplaceSellersDetailed f responses 0 (fuel + 1) = some []) ∧
    (∀ s, responses 0 = HttpResponse.err s → s ≠ 429 →
      ∀ fuel, getMarketplaceSellersDetailed f responses 0 (fuel + 1) = some []) := by
  constructor
  · intro h fuel
    unfold getMarketplaceSellersDetailed
    rw [h]
  · intro s h hs fuel
    unfold getMarketplaceSellersDetailed
    rw [h]
    simp [hs]

/-- Witness for C4: a server error (HTTP 500) on the first attempt
returns the empty listing list at once. -/
theorem getMarketplaceSellersDetailed_failure_isolation_witness :
    getMarketplaceSellersDetailed {} (fun _ => HttpResponse.err 500) 0 1 = some [] :=
  (getMarketplaceSellersDetailed_failure_isolation {} (fun _ => HttpResponse.err 500)).2
    500 rfl (by decide) 0

/-! ## C10 — unknown region filter values -/

/-- C10: a region filter whose lowercased value is not a key of the
configured region table passes every listing, in both the API variant
(`src/server.js` lines 72-77) and the scraping variant
(`src/unnamed/part_000` lines 81-86): `REGIONS[...]` is `undefined`,
and `matchesRegion` returns `true` before touching the aliases. -/
theorem matchesRegion_unknown_key_passes (loc rf : String)
    (h1 : REGIONS (jsToLower rf) = none) (h2 : REGIONS_SCRAPE (jsToLower rf) = none) :
    matchesRegion (some loc) (some rf) = true ∧
    matchesRegionScrape (some loc) (some rf) = true := by
  constructor
  · simp only [matchesRegion, matchesRegionWith, Option.getD]
    split
    · rfl
    · rw [h1]
  · simp only [matchesRegionScrape, matchesRegionWith, Option.getD]
    split
    · rfl
    · rw [h2]

/-- Witness for C10: the misspelled region code `atlantis` filters
nothing out. -/
theorem matchesRegion_unknown_key_passes_witness :
    matchesRegion (some "Berlin, Germany") (some "atlantis") = true ∧
    matchesRegionScrape (some "Berlin, Germany") (some "atlantis") = true :=
  matchesRegion_unknown_key_passes "Berlin, Germany" "atlantis" (by decide) (by decide)

/-! ## C5 — condition-rank filter and null-safety of all filters -/

/-- Strings carrying a condition rank are nonempty (hence truthy). -/
theorem CONDITIONS_isEmpty_false {s : String} {r : Nat} (h : CONDITIONS s = some r) :
    s.isEmpty = false := by
  by_contra hc
  rw [Bool.not_eq_false, String.isEmpty_iff] at hc
  subst hc
  have hnone : CONDITIONS "" = none := by decide
  rw [hnone] at h
  cases h

/-- A truthy optional string is `some` of its (nonempty) value. -/
theorem truthyS_eq_true {o : Option String} (h : truthyS o = true) :
    ∃ s, o = some s ∧ s.isEmpty = false := by
  cases o with
  | none => cases h
  | some s =>
    refine ⟨s, rfl, ?_⟩
    simpa [truthyS] using h

/-- A truthy optional rational is `some` of its value. -/
theorem truthyQ_eq_true {o : Option ℚ} (h : truthyQ o = true) :
    ∃ v, o = some v := by
  cases o with
  | none => cases h
  | some v => exact ⟨v, rfl⟩

/-- C5: the minimum-condition filter passes exactly when the listing's
condition rank on the 8-point scale is at least the threshold's rank
(first conjunct), and every filter of the listing loop
(`src/server.js` lines 118-138) is null-safe: an absent filter always
passes, an absent listing field always passes, and a listing is
excluded only when both the filter and the field are present and the
comparison fails (final five conjuncts exhibit the failing
comparison). -/
theorem passesFilters_c5 (f : Filters) (l : RawListing) :
    (∀ m i rm ri, f.minCondition = some m → l.condition = some i →
      CONDITIONS m = some rm → CONDITIONS i = some ri →
      (condCheck f l = true ↔ rm ≤ ri)) ∧
    (f.minCondition = none → condCheck f l = true) ∧
    (l.condition = none → condCheck f l = true) ∧
    (f.minSleeveCondition = none → sleeveCheck f l = true) ∧
    (l.sleeve_condition = none → sleeveCheck f l = true) ∧
    (f.region = none → regionCheck f l = true) ∧
    (l.sellerLocation = none → regionCheck f l = true) ∧
    (f.minRating = none → ratingCheck f l = true) ∧
    (l.sellerRating = none → ratingCheck f l = true) ∧
    (f.maxPrice = none → priceCheck f l = true) ∧
    (l.priceValue = none → priceCheck f l = true) ∧
    (condCheck f l = false → ∃ m i, f.minCondition = some m ∧ l.condition = some i ∧
      meetsCondition (some i) (some m) = false) ∧
    (sleeveCheck f l = false → ∃ m i, f.minSleeveCondition = some m ∧
      l.sleeve_condition = some i ∧ meetsCondition (some i) (some m) = false) ∧
    (regionCheck f l = false → ∃ r loc, f.region = some r ∧ l.sellerLocation = some loc ∧
      matchesRegion (some loc) (some r) = false) ∧
    (ratingCheck f l = false → ∃ mr r, f.minRating = some mr ∧ l.sellerRating = some r ∧
      r < mr) ∧
    (priceCheck f l = false → ∃ mp p, f.maxPrice = some mp ∧ l.priceValue = some p ∧
      mp < p) := by
  refine ⟨?_, ?_, ?_, ?_, ?_, ?_, ?_, ?_, ?_, ?_, ?_, ?_, ?_, ?_, ?_, ?_⟩
  · intro m i rm ri hm hi hrm hri
    have hme := CONDITIONS_isEmpty_false hrm
    have hie := CONDITIONS_isEmpty_false hri
    simp [condCheck, meetsCondition, hm, hi, truthyS, hme, hie, hrm, hri]
  · intro h; simp [condCheck, h, truthyS]
  · intro h; simp [condCheck, h, truthyS]
  · intro h; simp [sleeveCheck, h, truthyS]
  · intro h; simp [sleeveCheck, h, truthyS]
  · intro h; simp [regionCheck, h, truthyS]
  · intro h; simp [regionCheck, h, truthyS]
  · intro h; simp [ratingCheck, h, truthyQ]
  · intro h; simp [ratingCheck, h, truthyQ]
  · intro h; simp [priceCheck, h, truthyQ]
  · intro h; simp [priceCheck, h, truthyQ]
  · intro h
    rw [condCheck] at h
    by_cases hc : (truthyS f.minCondition && truthyS l.condition) = true
    · obtain ⟨hc1, hc2⟩ := Bool.and_eq_true_iff.mp hc
      obtain ⟨m, hm, _⟩ := truthyS_eq_true hc1
      obtain ⟨i, hi, _⟩ := truthyS_eq_true hc2
      rw [if_pos hc] at h
      exact ⟨m, i, hm, hi, by rw [← hm, ← hi]; exact h⟩
    · rw [if_neg hc] at h; cases h
  · intro h
    rw [sleeveCheck] at h
    by_cases hc : (truthyS f.minSleeveCondition && truthyS l.sleeve_condition) = true
    · obtain ⟨hc1, hc2⟩ := Bool.and_eq_true_iff.mp hc
      obtain ⟨m, hm, _⟩ := truthyS_eq_true hc1
      obtain ⟨i, hi, _⟩ := truthyS_eq_true hc2
      rw [if_pos hc] at h
      exact ⟨m, i, hm, hi, by rw [← hm, ← hi]; exact h⟩
    · rw [if_neg hc] at h; cases h
  · intro h
    rw [regionCheck] at h
    by_cases hc : (truthyS f.region && truthyS l.sellerLocation) = true
    · obtain ⟨hc1, hc2⟩ := Bool.and_eq_true_iff.mp hc
      obtain ⟨r, hr, _⟩ := truthyS_eq_true hc1
      obtain ⟨loc, hloc, _⟩ := truthyS_eq_true hc2
      rw [if_pos hc] at h
      exact ⟨r, loc, hr, hloc, by rw [← hr, ← hloc]; exact h⟩
    · rw [if_neg hc] at h; cases h
  · intro h
    rw [ratingCheck] at h
    by_cases hc : (truthyQ f.minRating && truthyQ l.sellerRating) = true
    · obtain ⟨hc1, hc2⟩ := Bool.and_eq_true_iff.mp hc
      obtain ⟨mr, hmr⟩ := truthyQ_eq_true hc1
      obtain ⟨r, hr⟩ := truthyQ_eq_true hc2
      rw [if_pos hc] at h
      rw [hmr, hr] at h
      refine ⟨mr, r, hmr, hr, ?_⟩
      simpa using h
    · rw [if_neg hc] at h; cases h
  · intro h
    rw [priceCheck] at h
    by_cases hc : (truthyQ f.maxPrice && truthyQ l.priceValue) = true
    · obtain ⟨hc1, hc2⟩ := Bool.and_eq_true_iff.mp hc
      obtain ⟨mp, hmp⟩ := truthyQ_eq_true hc1
      obtain ⟨p, hp⟩ := truthyQ_eq_true hc2
      rw [if_pos hc] at h
      rw [hmp, hp] at h
      refine ⟨mp, p, hmp, hp, ?_⟩
      simpa using h
    · rw [if_neg hc] at h; cases h

/-- Witness for C5: with threshold `VG+` (rank 6), a listing in
condition `NM` (rank 7) passes the condition filter. -/
theorem passesFilters_c5_witness :
    condCheck { minCondition := some "VG+" } { condition := some "NM", sellerUsername := some "alice" } = true :=
  ((passesFilters_c5 { minCondition := some "VG+" }
      { condition := some "NM", sellerUsername := some "alice" }).1
    "VG+" "NM" 6 7 rfl rfl (by decide) (by decide)).mpr (by decide)

/-! ## Aggregator bookkeeping: per-seller count and cumulative price -/

/-- The `count` recorded for seller `s` in the accumulator (0 when the
seller has not been seen). -/
def sellerCount (vs : List Vendor) (s : String) : Nat :=
  match vs.find? (fun v => v.seller == s) with
  | some v => v.count
  | none => 0

/-- The `totalPrice` recorded for seller `s` in the accumulator. -/
def sellerTotal (vs : List Vendor) (s : String) : ℚ :=
  match vs.find? (fun v => v.seller == s) with
  | some v => v.totalPrice
  | none => 0

theorem addToVendor_seller (w : WantItem) (sd : SellerData) (v : Vendor) :
    (addToVendor w sd v).seller = v.seller := rfl

theorem addToVendor_count (w : WantItem) (sd : SellerData) (v : Vendor) :
    (addToVendor w sd v).count = v.count + 1 := rfl

theorem addToVendor_totalPrice (w : WantItem) (sd : SellerData) (v : Vendor) :
    (addToVendor w sd v).totalPrice = v.totalPrice + sd.price := rfl

theorem freshVendor_seller (sd : SellerData) : (freshVendor sd).seller = sd.seller := rfl

theorem sellerCount_nil (s : String) : sellerCount [] s = 0 := rfl

theorem sellerTotal_nil (s : String) : sellerTotal [] s = 0 := rfl

theorem sellerCount_cons (v : Vendor) (vs : List Vendor) (s : String) :
    sellerCount (v :: vs) s = if v.seller = s then v.count else sellerCount vs s := by
  by_cases h : v.seller = s <;> simp [sellerCount, List.find?_cons, h]

theorem sellerTotal_cons (v : Vendor) (vs : List Vendor) (s : String) :
    sellerTotal (v :: vs) s = if v.seller = s then v.totalPrice else sellerTotal vs s := by
  by_cases h : v.seller = s <;> simp [sellerTotal, List.find?_cons, h]

theorem foldSeller_nil (w : WantItem) (sd : SellerData) :
    foldSeller w sd [] = [addToVendor w sd (freshVendor sd)] := rfl

theorem foldSeller_cons_hit (w : WantItem) (sd : SellerData) (v : Vendor) (vs : List Vendor)
    (hv : v.seller = sd.seller) :
    foldSeller w sd (v :: vs) = addToVendor w sd v :: vs := by
  simp [foldSeller, hv]

theorem foldSeller_cons_miss (w : WantItem) (sd : SellerData) (v : Vendor) (vs : List Vendor)
    (hv : ¬ v.seller = sd.seller) :
    foldSeller w sd (v :: vs) = v :: foldSeller w sd vs := by
  simp [foldSeller, hv]

theorem sellerCount_foldSeller (w : WantItem) (sd : SellerData) (acc : List Vendor)
    (s : String) :
    sellerCount (foldSeller w sd acc) s =
      sellerCount acc s + (if sd.seller = s then 1 else 0) := by
  induction acc with
  | nil =>
    rw [foldSeller_nil, sellerCount_cons, addToVendor_seller, freshVendor_seller,
      addToVendor_count, sellerCount_nil]
    by_cases h : sd.seller = s
    · rw [if_pos h, if_pos h]
      rfl
    · rw [if_neg h, if_neg h]
  | cons v vs ih =>
    by_cases hv : v.seller = sd.seller
    · rw [foldSeller_cons_hit w sd v vs hv, sellerCount_cons, sellerCount_cons,
        addToVendor_seller, addToVendor_count]
      by_cases hs : v.seller = s
      · rw [if_pos hs, if_pos hs, if_pos (hv ▸ hs)]
      · have hss : ¬ sd.seller = s := fun h => hs (hv.trans h)
        rw [if_neg hs, if_neg hs, if_neg hss]
        rfl
    · rw [foldSeller_cons_miss w sd v vs hv, sellerCount_cons, sellerCount_cons]
      by_cases hs : v.seller = s
      · have hss : ¬ sd.seller = s := fun h => hv (hs.trans h.symm)
        rw [if_pos hs, if_pos hs, if_neg hss]
        rfl
      · rw [if_neg hs, if_neg hs]
        exact ih

theorem sellerTotal_foldSeller (w : WantItem) (sd : SellerData) (acc : List Vendor)
    (s : String) :
    sellerTotal (foldSeller w sd acc) s =
      sellerTotal acc s + (if sd.seller = s then sd.price else 0) := by
  induction acc with
  | nil =>
    rw [foldSeller_nil, sellerTotal_cons, addToVendor_seller, freshVendor_seller,
      addToVendor_totalPrice, sellerTotal_nil]
    by_cases h : sd.seller = s
    · rw [if_pos h, if_pos h]
      show (0 : ℚ) + sd.price = 0 + sd.price
      rfl
    · rw [if_neg h, if_neg h]
      show (0 : ℚ) = 0 + 0
      rw [add_zero]
  | cons v vs ih =>
    by_cases hv : v.seller = sd.seller
    · rw [foldSeller_cons_hit w sd v vs hv, sellerTotal_cons, sellerTotal_cons,
        addToVendor_seller, addToVendor_totalPrice]
      by_cases hs : v.seller = s
      · rw [if_pos hs, if_pos hs, if_pos (hv ▸ hs)]
      · have hss : ¬ sd.seller = s := fun h => hs (hv.trans h)
        rw [if_neg hs, if_neg hs, if_neg hss, add_zero]
    · rw [foldSeller_cons_miss w sd v vs hv, sellerTotal_cons, sellerTotal_cons]
      by_cases hs : v.seller = s
      · have hss : ¬ sd.seller = s := fun h => hv (hs.trans h.symm)
        rw [if_pos hs, if_pos hs, if_neg hss, add_zero]
      · rw [if_neg hs, if_neg hs]
        exact ih

theorem foldResults_cons (p : WantItem × SellerData) (ps : List (WantItem × SellerData))
    (acc : List Vendor) :
    foldResults (p :: ps) acc = foldResults ps (foldSeller p.1 p.2 acc) := rfl

theorem sellerCount_foldResults (ps : List (WantItem × SellerData)) (acc : List Vendor)
    (s : String) :
    sellerCount (foldResults ps acc) s =
      sellerCount acc s + ps.countP (fun p => p.2.seller == s) := by
  induction ps generalizing acc with
  | nil => simp [foldResults]
  | cons p ps ih =>
    rw [foldResults_cons, ih, sellerCount_foldSeller, List.countP_cons]
    by_cases h : p.2.seller = s <;> simp [h] <;> omega

theorem sellerTotal_foldResults (ps : List (WantItem × SellerData)) (acc : List Vendor)
    (s : String) :
    sellerTotal (foldResults ps acc) s =
      sellerTotal acc s + ((ps.filter (fun p => p.2.seller == s)).map
        (fun p => p.2.price)).sum := by
  induction ps generalizing acc with
  | nil => simp [foldResults]
  | cons p ps ih =>
    rw [foldResults_cons, ih, sellerTotal_foldSeller, List.filter_cons]
    by_cases h : p.2.seller = s <;> simp [h] <;> ring

/-! ## C2 — per-item per-seller deduplication -/

/-- C2 counterexample: one want item whose listing source returns two
listings from the same seller `alice` (prices 10 and 12) makes `alice`
contribute twice — the fold of `src/server.js` lines 189-216 performs
no deduplication, so the claimed "at most one listing per seller per
item" bound fails. -/
theorem foldResults_dedup_counterexample :
    ¬ (sellerCount (foldResults [(wItem1, sdAlice 10), (wItem1, sdAlice 12)] [])
        "alice" ≤ 1) := by
  decide

/-- C2 amended: no deduplication happens at ingestion. Every listing a
seller offers for an item is kept: the seller's `count` is the number
of `(item, listing)` pairs carrying that seller (duplicates included)
and `totalPrice` is the sum of all their prices. -/
theorem foldResults_keeps_duplicates (ps : List (WantItem × SellerData)) (s : String) :
    sellerCount (foldResults ps []) s = ps.countP (fun p => p.2.seller == s) ∧
    sellerTotal (foldResults ps []) s =
      ((ps.filter (fun p => p.2.seller == s)).map (fun p => p.2.price)).sum := by
  refine ⟨?_, ?_⟩
  · rw [sellerCount_foldResults]
    simp [sellerCount]
  · rw [sellerTotal_foldResults]
    simp [sellerTotal]

/-! ## C9 — fold-order independence of the aggregates -/

/-- C9: folding any permutation of the same multiset of per-item
results yields the same `count` and `totalPrice` for every seller
(the accumulation of `src/server.js` lines 189-216 is commutative:
sums and counts only). -/
theorem foldResults_order_independent (ps1 ps2 : List (WantItem × SellerData))
    (h : ps1.Perm ps2) (s : String) :
    sellerCount (foldResults ps1 []) s = sellerCount (foldResults ps2 []) s ∧
    sellerTotal (foldResults ps1 []) s = sellerTotal (foldResults ps2 []) s := by
  refine ⟨?_, ?_⟩
  · rw [sellerCount_foldResults, sellerCount_foldResults]
    rw [h.countP_eq]
  · rw [sellerTotal_foldResults, sellerTotal_foldResults]
    have := ((h.filter (fun p => p.2.seller == s)).map (fun p => p.2.price)).sum_eq
    rw [this]

/-- Witness for C9 at a concrete permutation of two fetched pairs. -/
theorem foldResults_order_independent_witness :
    sellerCount (foldResults [(wItem1, sdAlice 10), (wItem2, sdBob 8)] []) "alice" =
      sellerCount (foldResults [(wItem2, sdBob 8), (wItem1, sdAlice 10)] []) "alice" :=
  (foldResults_order_independent _ _ (by decide) "alice").1

/-! ## Ranking: sortedness and stability -/

instance : IsTotal RankedVendor vendorGE :=
  ⟨fun a b => Nat.le_total b.count a.count⟩

instance : IsTrans RankedVendor vendorGE :=
  ⟨fun _ _ _ h1 h2 => le_trans h2 h1⟩

theorem filter_orderedInsert_count (v : RankedVendor) (l : List RankedVendor) (c : Nat) :
    (List.orderedInsert vendorGE v l).filter (fun w => w.count == c) =
      if v.count = c then v :: l.filter (fun w => w.count == c)
      else l.filter (fun w => w.count == c) := by
  induction l with
  | nil =>
    by_cases h : v.count = c <;> simp [List.orderedInsert, h]
  | cons b bs ih =>
    rw [List.orderedInsert]
    by_cases hvb : vendorGE v b
    · rw [if_pos hvb]
      by_cases h : v.count = c <;> simp [List.filter_cons, h]
    · rw [if_neg hvb]
      by_cases h : v.count = c
      · have hbc : ¬ b.count = c := by
          intro hbc
          exact hvb (le_of_eq (hbc.trans h.symm))
        simp [List.filter_cons, hbc, h, ih]
      · by_cases hbc : b.count = c <;> simp [List.filter_cons, hbc, h, ih]

theorem filter_insertionSort_count (l : List RankedVendor) (c : Nat) :
    (List.insertionSort vendorGE l).filter (fun w => w.count == c) =
      l.filter (fun w => w.count == c) := by
  induction l with
  | nil => rfl
  | cons v vs ih =>
    rw [List.insertionSort, filter_orderedInsert_count, List.filter_cons]
    by_cases h : v.count = c <;> simp [h, ih]

theorem applySavings_pairwise (n : Nat) (l : List RankedVendor)
    (h : List.Pairwise vendorGE l) : List.Pairwise vendorGE (applySavings n l) := by
  cases l with
  | nil => exact h
  | cons t r =>
    rw [applySavings]
    rw [List.pairwise_cons] at h ⊢
    exact ⟨fun b hb => h.1 b hb, h.2⟩

theorem applySavings_filter_seller (n : Nat) (l : List RankedVendor) (c : Nat) :
    ((applySavings n l).filter (fun w => w.count == c)).map RankedVendor.seller =
      (l.filter (fun w => w.count == c)).map RankedVendor.seller := by
  cases l with
  | nil => rfl
  | cons t r =>
    rw [applySavings, List.filter_cons, List.filter_cons]
    by_cases h : t.count = c <;> simp [h]

theorem mem_applySavings (n : Nat) (l : List RankedVendor) (v : RankedVendor)
    (hv : v ∈ applySavings n l) :
    ∃ u ∈ l, u.count = v.count ∧ u.listings = v.listings ∧
      u.totalPrice = v.totalPrice ∧ u.avgPrice = v.avgPrice := by
  cases l with
  | nil => cases hv
  | cons t r =>
    rw [applySavings] at hv
    rcases List.mem_cons.mp hv with rfl | hv
    · exact ⟨t, List.mem_cons_self t r, rfl, rfl, rfl, rfl⟩
    · exact ⟨v, List.mem_cons_of_mem t hv, rfl, rfl, rfl, rfl⟩

/-! ## First-discovery order of sellers in the accumulator -/

/-- The sellers of a stream of pairs in discovery order, skipping
sellers already seen. -/
def newSellers (seen : List String) : List String → List String
  | [] => []
  | s :: rest =>
    if s ∈ seen then newSellers seen rest
    else s :: newSellers (seen ++ [s]) rest

theorem foldSeller_sellers (w : WantItem) (sd : SellerData) (acc : List Vendor) :
    (foldSeller w sd acc).map Vendor.seller =
      acc.map Vendor.seller ++
        (if sd.seller ∈ acc.map Vendor.seller then [] else [sd.seller]) := by
  induction acc with
  | nil => simp [foldSeller_nil, addToVendor_seller, freshVendor_seller]
  | cons u us ih =>
    by_cases hu : u.seller = sd.seller
    · rw [foldSeller_cons_hit w sd u us hu]
      have hmem : sd.seller ∈ (u :: us).map Vendor.seller := by
        rw [List.map_cons, ← hu]
        exact List.mem_cons_self _ _
      rw [if_pos hmem]
      simp [addToVendor_seller]
    · rw [foldSeller_cons_miss w sd u us hu]
      rw [List.map_cons, List.map_cons, ih]
      by_cases hm : sd.seller ∈ List.map Vendor.seller us
      · rw [if_pos hm, if_pos (List.mem_cons_of_mem _ hm)]
        rfl
      · have hnc : ¬ sd.seller ∈ u.seller :: List.map Vendor.seller us := by
          intro hc
          rcases List.mem_cons.mp hc with hc | hc
          · exact hu hc.symm
          · exact hm hc
        rw [if_neg hm, if_neg hnc]
        rfl

theorem foldResults_sellers (ps : List (WantItem × SellerData)) (acc : List Vendor) :
    (foldResults ps acc).map Vendor.seller =
      acc.map Vendor.seller ++
        newSellers (acc.map Vendor.seller) (ps.map (fun p => p.2.seller)) := by
  induction ps generalizing acc with
  | nil => simp [foldResults, newSellers]
  | cons p ps ih =>
    rw [foldResults_cons, ih, foldSeller_sellers, List.map_cons, newSellers]
    by_cases hm : p.2.seller ∈ acc.map Vendor.seller
    · rw [if_pos hm, if_pos hm]
      simp
    · rw [if_neg hm, if_neg hm]
      simp [List.append_assoc]

/-! ## Invariants of the accumulator entries -/

theorem foldSeller_inv (w : WantItem) (sd : SellerData) (acc : List Vendor)
    (hacc : ∀ v ∈ acc, v.count = v.listings.length ∧ 1 ≤ v.count) :
    ∀ v ∈ foldSeller w sd acc, v.count = v.listings.length ∧ 1 ≤ v.count := by
  induction acc with
  | nil =>
    intro v hv
    rw [foldSeller_nil] at hv
    rcases List.mem_singleton.mp hv with rfl
    constructor
    · simp [addToVendor, freshVendor]
    · simp [addToVendor, freshVendor]
  | cons u us ih =>
    intro v hv
    by_cases hu : u.seller = sd.seller
    · rw [foldSeller_cons_hit w sd u us hu] at hv
      rcases List.mem_cons.mp hv with rfl | hv
      · have hui := hacc u (List.mem_cons_self u us)
        constructor
        · simp [addToVendor, hui.1]
        · simp [addToVendor]
      · exact hacc v (List.mem_cons_of_mem u hv)
    · rw [foldSeller_cons_miss w sd u us hu] at hv
      rcases List.mem_cons.mp hv with rfl | hv
      · exact hacc v (List.mem_cons_self v us)
      · exact ih (fun x hx => hacc x (List.mem_cons_of_mem u hx)) v hv

theorem foldResults_inv (ps : List (WantItem × SellerData)) (acc : List Vendor)
    (hacc : ∀ v ∈ acc, v.count = v.listings.length ∧ 1 ≤ v.count) :
    ∀ v ∈ foldResults ps acc, v.count = v.listings.length ∧ 1 ≤ v.count := by
  induction ps generalizing acc with
  | nil => exact hacc
  | cons p ps ih =>
    rw [foldResults_cons]
    exact ih _ (foldSeller_inv p.1 p.2 acc hacc)

/-! ## C6 — ranked sellers: descending stable sort by count -/

/-- C6: the ranked vendor list of `analyzeWantlistParallel` is sorted by
`count` descending; for every count value, the sellers holding it
appear in the same order as in the accumulator (stable sort); and the
accumulator lists sellers in first-discovery order of the folded
pairs. The output is a pure function of its inputs, hence
deterministic. -/
theorem analyzeWantlistParallel_ranking (wl : List WantItem)
    (results : WantItem → List SellerData) (mi : Option Nat) :
    List.Pairwise vendorGE (analyzeWantlistParallel wl results mi) ∧
    (∀ c : Nat,
      ((analyzeWantlistParallel wl results mi).filter (fun v => v.count == c)).map
          RankedVendor.seller =
        (((foldResults (analysisPairs wl results mi) []).filter
          (fun v => v.count == c)).map Vendor.seller)) ∧
    (foldResults (analysisPairs wl results mi) []).map Vendor.seller =
      newSellers [] ((analysisPairs wl results mi).map (fun p => p.2.seller)) := by
  refine ⟨?_, ?_, ?_⟩
  · rw [analyzeWantlistParallel, rankVendors]
    exact applySavings_pairwise _ _
      (List.sorted_insertionSort vendorGE
        ((foldResults (analysisPairs wl results mi) []).map finalizeVendor))
  · intro c
    rw [analyzeWantlistParallel, rankVendors, applySavings_filter_seller,
      filter_insertionSort_count, List.filter_map, List.map_map]
    have hpred : ((fun w : RankedVendor => w.count == c) ∘ finalizeVendor) =
        (fun v : Vendor => v.count == c) := rfl
    rw [hpred]
    have hsel : (RankedVendor.seller ∘ finalizeVendor) = Vendor.seller := rfl
    rw [hsel]
  · have h := foldResults_sellers (analysisPairs wl results mi) []
    simpa using h

/-! ## C7 — estimatedSavings for the top-ranked seller only -/

/-- C7: whenever the analysis produces a non-empty ranked list, the
head (top-ranked) vendor carries
`estimatedSavings = analyzedItems × 5 − 5` (per-order shipping
estimate 5), and no vendor below the top carries a savings figure
(`src/server.js` lines 233-241 assign the field to `vendors[0]`
only; the `.map` of lines 226-231 never sets it). -/
theorem analyzeWantlistParallel_top_savings (wl : List WantItem)
    (results : WantItem → List SellerData) (mi : Option Nat)
    (top : RankedVendor) (rest : List RankedVendor)
    (h : analyzeWantlistParallel wl results mi = top :: rest) :
    top.estimatedSavings =
      some (round2 (((analyzedItems wl mi).length : ℚ) * 5 - 5)) ∧
    ∀ v ∈ rest, v.estimatedSavings = none := by
  rw [analyzeWantlistParallel, rankVendors] at h
  cases hs : List.insertionSort vendorGE
      ((foldResults (analysisPairs wl results mi) []).map finalizeVendor) with
  | nil =>
    rw [hs] at h
    cases h
  | cons t r =>
    rw [hs] at h
    rw [applySavings] at h
    injection h with h1 h2
    constructor
    · rw [← h1]
    · intro v hv
      rw [← h2] at hv
      have hv1 : v ∈ t :: r := List.mem_cons_of_mem t hv
      rw [← hs] at hv1
      have hv2 := (List.mem_insertionSort vendorGE).mp hv1
      obtain ⟨v0, _, rfl⟩ := List.mem_map.mp hv2
      rfl

/-- The listing entry of `bob` for item 1 at price 12. -/
def bobListing1 : VendorListing :=
  { releaseId := 1, releaseTitle := "Unknown", price := 12, currency := "USD",
    condition := "Unknown", sleeveCondition := "Unknown", uri := "" }

/-- The listing entry of `bob` for item 2 at price 8. -/
def bobListing2 : VendorListing :=
  { releaseId := 2, releaseTitle := "Unknown", price := 8, currency := "USD",
    condition := "Unknown", sleeveCondition := "Unknown", uri := "" }

/-- The listing entry of `alice` for item 1 at price 10. -/
def aliceListing1 : VendorListing :=
  { releaseId := 1, releaseTitle := "Unknown", price := 10, currency := "USD",
    condition := "Unknown", sleeveCondition := "Unknown", uri := "" }

/-- The top-ranked vendor of the two-item witness run. -/
def vendorTopBob : RankedVendor :=
  { seller := "bob", count := 2, listings := [bobListing1, bobListing2],
    totalPrice := 20, location := "Unknown", rating := 0, rating_count := 0,
    avgPrice := 10, estimatedTotal := 30, savingsVsMultiple := 0,
    estimatedSavings := some 5 }

/-- The runner-up vendor of the two-item witness run. -/
def vendorAlice1 : RankedVendor :=
  { seller := "alice", count := 1, listings := [aliceListing1],
    totalPrice := 10, location := "Unknown", rating := 0, rating_count := 0,
    avgPrice := 10, estimatedTotal := 15, savingsVsMultiple := 0,
    estimatedSavings := none }

/-- Witness for C7: a two-item run where `bob` can supply both items;
the top vendor gets savings `2·5 − 5 = 5`, the runner-up none. -/
theorem analyzeWantlistParallel_top_savings_witness :
    vendorTopBob.estimatedSavings =
      some (round2 (((analyzedItems [wItem1, wItem2] none).length : ℚ) * 5 - 5)) ∧
    ∀ v ∈ [vendorAlice1], v.estimatedSavings = none :=
  analyzeWantlistParallel_top_savings [wItem1, wItem2]
    (fun w => if w.id = 1 then [sdAlice 10, sdBob 12] else [sdBob 8]) none
    vendorTopBob [vendorAlice1] (by
      norm_num [analyzeWantlistParallel, rankVendors, analysisPairs, analyzedItems,
        foldResults, foldSeller, addToVendor, freshVendor, mkSellerData, sdAlice,
        sdBob, rawAlice, wItem1, wItem2, finalizeVendor, applySavings, round2,
        List.insertionSort, List.orderedInsert, vendorGE, orUnknown, orDefaultS,
        mkVendorListing, vendorTopBob, vendorAlice1, bobListing1, bobListing2,
        aliceListing1])

/-! ## C8 — count/listings invariant and average price -/

/-- The run used to refute exact average equality: one item, three
listings of `alice` at prices 1, 2 and 7 (total 10, count 3). -/
def c8run : List RankedVendor :=
  analyzeWantlistParallel [wItem1] (fun _ => [sdAlice 1, sdAlice 2, sdAlice 7]) none

/-- C8 counterexample: the report stores `avgPrice` rounded to two
decimals by `toFixed(2)` (`src/server.js` line 228), so with
`totalPrice = 10` and `count = 3` the stored average is `3.33`, which
is not `10 / 3`: `averagePrice = cumulativePrice / matchedItemCount`
fails as an exact equality. -/
theorem avgPrice_exact_counterexample :
    c8run.map RankedVendor.avgPrice = [333 / 100] ∧
    c8run.map RankedVendor.totalPrice = [10] ∧
    c8run.map RankedVendor.count = [3] ∧
    ((333 : ℚ) / 100) ≠ (10 : ℚ) / 3 := by
  refine ⟨?_, ?_, ?_, by norm_num⟩ <;>
    norm_num [c8run, analyzeWantlistParallel, rankVendors, analysisPairs,
      analyzedItems, foldResults, foldSeller, addToVendor, freshVendor,
      mkSellerData, sdAlice, rawAlice, wItem1, finalizeVendor, applySavings,
      round2, List.insertionSort, List.orderedInsert, vendorGE, orUnknown,
      orDefaultS, mkVendorListing]

/-- C8 amended: in every analysis report, each ranked vendor satisfies
`count = listings.length` and `count ≥ 1`, and its `avgPrice` equals
`totalPrice / count` rounded to two decimal places (`toFixed(2)`); the
zero-count guard of `src/server.js` line 228 returns 0 without
dividing (final conjunct), though no aggregated vendor ever has
count 0. -/
theorem analyzeWantlistParallel_aggregate_invariants (wl : List WantItem)
    (results : WantItem → List SellerData) (mi : Option Nat)
    (v : RankedVendor) (hv : v ∈ analyzeWantlistParallel wl results mi) :
    (v.count = v.listings.length ∧ 1 ≤ v.count ∧
      v.avgPrice = round2 (v.totalPrice / (v.count : ℚ))) ∧
    (∀ v0 : Vendor, v0.count = 0 → (finalizeVendor v0).avgPrice = 0) := by
  constructor
  · rw [analyzeWantlistParallel, rankVendors] at hv
    obtain ⟨u, hu, hcount, hlist, htotal, havg⟩ := mem_applySavings _ _ v hv
    have hu2 := (List.mem_insertionSort vendorGE).mp hu
    obtain ⟨v0, hv0, rfl⟩ := List.mem_map.mp hu2
    have hinv := foldResults_inv (analysisPairs wl results mi) []
      (by intro x hx; cases hx) v0 hv0
    refine ⟨?_, ?_, ?_⟩
    · rw [← hcount, ← hlist]
      exact hinv.1
    · rw [← hcount]
      exact hinv.2
    · rw [← havg, ← htotal, ← hcount]
      show (if 0 < v0.count then round2 (v0.totalPrice / (v0.count : ℚ)) else 0) =
        round2 (v0.totalPrice / (v0.count : ℚ))
      rw [if_pos (show 0 < v0.count from hinv.2)]
  · intro v0 h0
    show (if 0 < v0.count then round2 (v0.totalPrice / (v0.count : ℚ)) else 0) = 0
    rw [h0]
    rfl

/-- The listing entry of `alice` for item 1 at price `p`. -/
def aliceListingAt (p : ℚ) : VendorListing :=
  { releaseId := 1, releaseTitle := "Unknown", price := p, currency := "USD",
    condition := "Unknown", sleeveCondition := "Unknown", uri := "" }

/-- The sole vendor of the three-listing C8 run. -/
def vendorAliceC8 : RankedVendor :=
  { seller := "alice", count := 3,
    listings := [aliceListingAt 1, aliceListingAt 2, aliceListingAt 7],
    totalPrice := 10, location := "Unknown", rating := 0, rating_count := 0,
    avgPrice := 333 / 100, estimatedTotal := 25, savingsVsMultiple := 0,
    estimatedSavings := some 0 }

/-- Witness for C8 at the three-listing run: the sole vendor has
`count = 3 = listings.length` and `avgPrice = round2 (10 / 3)`. -/
theorem analyzeWantlistParallel_aggregate_invariants_witness :
    (vendorAliceC8.count = vendorAliceC8.listings.length ∧ 1 ≤ vendorAliceC8.count ∧
      vendorAliceC8.avgPrice = round2 (vendorAliceC8.totalPrice / (vendorAliceC8.count : ℚ))) ∧
    (∀ v0 : Vendor, v0.count = 0 → (finalizeVendor v0).avgPrice = 0) :=
  analyzeWantlistParallel_aggregate_invariants [wItem1]
    (fun _ => [sdAlice 1, sdAlice 2, sdAlice 7]) none vendorAliceC8 (by
      norm_num [analyzeWantlistParallel, rankVendors, analysisPairs, analyzedItems,
        foldResults, foldSeller, addToVendor, freshVendor, mkSellerData, sdAlice,
        rawAlice, wItem1, finalizeVendor, applySavings, round2,
        List.insertionSort, List.orderedInsert, vendorGE, orUnknown, orDefaultS,
        mkVendorListing, vendorAliceC8, aliceListingAt])

/-! ## C3 — the rolling-window bound of the rate limiter -/

theorem countP_mono_mem {α : Type} (l : List α) (p q : α → Bool)
    (h : ∀ a ∈ l, p a = true → q a = true) : l.countP p ≤ l.countP q := by
  induction l with
  | nil => exact le_refl 0
  | cons a as ih =>
    rw [List.countP_cons, List.countP_cons]
    have hih := ih (fun x hx hp => h x (List.mem_cons_of_mem a hx) hp)
    by_cases hp : p a = true
    · rw [if_pos hp, if_pos (h a (List.mem_cons_self a as) hp)]
      omega
    · rw [if_neg hp]
      have hq1 : (if q a = true then 1 else 0) ≤ 1 := by
        by_cases hqa : q a = true
        · rw [if_pos hqa]
        · rw [if_neg hqa]; omega
      omega

/-- Evicting at a later clock from an already window-filtered queue is
the window filter at the later clock (the window only shrinks). -/
theorem evictOld_filter (grants : List Nat) (m now : Nat) (h : m ≤ now) :
    evictOld now (grants.filter (fun g => decide (m - g < 60000))) =
      grants.filter (fun g => decide (now - g < 60000)) := by
  rw [evictOld, List.filter_filter]
  apply List.filter_congr
  intro g _
  by_cases hg : now - g < 60000
  · have hm : m - g < 60000 := lt_of_le_of_lt (Nat.sub_le_sub_right h g) hg
    simp [hg, hm]
  · simp [hg]

/-- What a successful `throttle` call guarantees: the grant is no
earlier than the call, the new queue is exactly the in-window grants
(old grants plus the new one), its length is within the limit, and
every grant is bounded by the new grant time. -/
theorem throttle_spec (limit : Nat) :
    ∀ (fuel now m : Nat) (queue grants : List Nat),
      m ≤ now →
      queue = grants.filter (fun g => decide (m - g < 60000)) →
      (∀ g ∈ grants, g ≤ m) →
      ∀ gtime q1, RateLimiter.throttle limit fuel now queue = some (gtime, q1) →
        now ≤ gtime ∧
        q1 = (grants ++ [gtime]).filter (fun g => decide (gtime - g < 60000)) ∧
        q1.length ≤ limit ∧
        (∀ g ∈ grants ++ [gtime], g ≤ gtime) := by
  intro fuel
  induction fuel with
  | zero =>
    intro now m queue grants _ _ _ gtime q1 h
    cases h
  | succ n ih =>
    intro now m queue grants hmn hq hb gtime q1 h
    simp only [RateLimiter.throttle] at h
    have hqq : evictOld now queue =
        grants.filter (fun g => decide (now - g < 60000)) := by
      rw [hq]
      exact evictOld_filter grants m now hmn
    rw [hqq] at h
    by_cases hlen :
        limit ≤ (grants.filter (fun g => decide (now - g < 60000))).length
    · rw [if_pos hlen] at h
      have hb2 : ∀ g ∈ grants, g ≤ now := fun g hg => le_trans (hb g hg) hmn
      have hstep := ih _ now _ grants (Nat.le_add_right now _) rfl hb2 gtime q1 h
      exact ⟨le_trans (Nat.le_add_right now _) hstep.1, hstep.2.1, hstep.2.2.1,
        hstep.2.2.2⟩
    · rw [if_neg hlen] at h
      injection h with h0
      injection h0 with h1 h2
      subst h1
      subst h2
      refine ⟨le_refl _, ?_, ?_, ?_⟩
      · rw [List.filter_append]
        have hsingle : List.filter (fun g => decide (now - g < 60000)) [now] =
            [now] := by
          simp
        rw [hsingle]
      · rw [List.length_append, List.length_singleton]
        omega
      · intro g hg
        rcases List.mem_append.mp hg with hg | hg
        · exact le_trans (hb g hg) hmn
        · rcases List.mem_singleton.mp hg with rfl
          exact le_refl g

/-- Appending a certified grant (its own window stayed within the
limit) preserves the rolling-window bound for every window. -/
theorem grantsInWindow_append_le (limit : Nat) (grants : List Nat) (g : Nat)
    (hb : ∀ x ∈ grants, x ≤ g)
    (hw : ((grants ++ [g]).filter (fun x => decide (g - x < 60000))).length ≤ limit)
    (hg : ∀ t, grantsInWindow grants t ≤ limit) :
    ∀ t, grantsInWindow (grants ++ [g]) t ≤ limit := by
  intro t
  rw [grantsInWindow, List.countP_append]
  have h4 : List.countP (fun x => decide (g - x < 60000)) grants +
      List.countP (fun x => decide (g - x < 60000)) [g] ≤ limit := by
    rw [← List.countP_append, List.countP_eq_length_filter]
    exact hw
  have h5 : List.countP (fun x => decide (g - x < 60000)) [g] = 1 := by simp
  by_cases hgt : (decide (t - g < 60000) && decide (g ≤ t)) = true
  · have h1 : List.countP (fun x => decide (t - x < 60000) && decide (x ≤ t)) grants ≤
        List.countP (fun x => decide (g - x < 60000)) grants := by
      apply countP_mono_mem
      intro x hx hpx
      simp only [Bool.and_eq_true, decide_eq_true_eq] at hpx hgt
      have hxg := hb x hx
      simp only [decide_eq_true_eq]
      omega
    have h6 : List.countP (fun x => decide (t - x < 60000) && decide (x ≤ t)) [g] ≤ 1 :=
      le_trans (List.countP_le_length _) (by simp)
    omega
  · have h6 : List.countP (fun x => decide (t - x < 60000) && decide (x ≤ t)) [g] = 0 := by
      simp only [List.countP_cons, List.countP_nil]
      rw [if_neg hgt]
    rw [h6, Nat.add_zero]
    exact hg t

/-- The run-level invariant: starting from a state whose queue is the
in-window grants, with all grants in the past and the window bound
holding so far, the bound holds for the final grant history. -/
theorem run_spec (limit : Nat) :
    ∀ (calls : List (Nat × Nat)) (clock : Nat) (queue grants : List Nat),
      queue = grants.filter (fun g => decide (clock - g < 60000)) →
      (∀ g ∈ grants, g ≤ clock) →
      (∀ t, grantsInWindow grants t ≤ limit) →
      ∀ c1 q1 g1, RateLimiter.run limit calls clock queue grants = some (c1, q1, g1) →
        ∀ t, grantsInWindow g1 t ≤ limit := by
  intro calls
  induction calls with
  | nil =>
    intro clock queue grants hq hb hg c1 q1 g1 h t
    simp only [RateLimiter.run, Option.some.injEq, Prod.mk.injEq] at h
    obtain ⟨_, _, rfl⟩ := h
    exact hg t
  | cons call calls ih =>
    intro clock queue grants hq hb hg c1 q1 g1 h t
    obtain ⟨delay, fuel⟩ := call
    rw [RateLimiter.run] at h
    cases hth : RateLimiter.throttle limit fuel (clock + delay) queue with
    | none =>
      rw [hth] at h
      cases h
    | some res =>
      obtain ⟨g, queue1⟩ := res
      rw [hth] at h
      have hspec := throttle_spec limit fuel (clock + delay) clock queue grants
        (Nat.le_add_right clock delay) hq hb g queue1 hth
      obtain ⟨hge, hqe, hlen, hble⟩ := hspec
      refine ih g queue1 (grants ++ [g]) hqe hble ?_ c1 q1 g1 h t
      apply grantsInWindow_append_le limit grants g
      · intro x hx
        exact hble x (List.mem_append_left _ hx)
      · rw [← hqe]
        exact hlen
      · exact hg

/-- C3: over any sequential run of `RateLimiter.throttle` calls
(`src/server.js` lines 45-57) started from an empty limiter, the
number of grant timestamps falling in any rolling 60-second window
`(t − 60000, t]` never exceeds `maxPerMinute`: a caller whose evicted
queue has reached the limit sleeps `60000 − (now − oldest) + 100` ms
(the 100 ms safety margin), re-evaluates in a loop, and appends its
timestamp only once the window has room. -/
theorem RateLimiter_window_bound (limit : Nat) (calls : List (Nat × Nat))
    (c1 : Nat) (q1 grants : List Nat)
    (h : RateLimiter.run limit calls 0 [] [] = some (c1, q1, grants)) (t : Nat) :
    grantsInWindow grants t ≤ limit :=
  run_spec limit calls 0 [] [] rfl (fun g hg => absurd hg (List.not_mem_nil g))
    (fun _ => Nat.zero_le limit) c1 q1 grants h t

/-- Witness for C3: a limiter with limit 2 and three back-to-back
calls; the third grant lands at 60100 ms (after the oldest grant left
the window plus the margin), and every rolling window holds at most
2 grants. -/
theorem RateLimiter_window_bound_witness :
    grantsInWindow [0, 0, 60100] 60100 ≤ 2 :=
  RateLimiter_window_bound 2 [(0, 5), (0, 5), (0, 5)] 60100 [60100] [0, 0, 60100]
    (by decide) 60100
